import Mathlib

/-!
Verification of the live-transcriber audio pipeline.

This file gives a shallow embedding, in Lean 4, of the transcription
pipeline of the repository (src/main.py and src/main_adaptive.py) and
proves the specification claims about it.

Modelling conventions:
* Audio sample values are modelled as exact rationals (ℚ).  The source
  computes `volume_level = np.sqrt(np.mean(audio**2))` and only ever
  compares it against nonnegative constants; since `Real.sqrt` is
  strictly monotone on nonnegative arguments, every comparison
  `sqrt m < c` (with `c ≥ 0`) is encoded as `m < c ^ 2`.  The constants
  `0.01`, `0.001`, `0.7`, `3.0` of the source appear as the exact
  rationals `1/100`, `1/1000`, `7/10`, `3`, and the squared thresholds
  as `1/10000` and `1/1000000`.
* Python strings are modelled as `List Char`; `str.strip`, `str.split`,
  `str.replace`, `str.lower` are implemented below with Python's
  semantics (`replace` scans left to right, non-overlapping).
* Blocking queues are modelled as lists (FIFO: enqueue appends at the
  tail, dequeue pops the head); `queue.get(timeout=1)` raising
  `queue.Empty` is the no-op step on an empty queue.
* Transcript lines are an inductive type; lines whose text interpolates
  the measured volume carry the (squared) volume as payload.
* The transcription engine is an opaque parameter returning `Except`:
  `Except.error` models the engine call raising an exception.
-/

set_option maxRecDepth 4000000

/-- Python strings, modelled as lists of characters. -/
abbrev Str := List Char

/-- Python `str.strip()` with no argument: remove whitespace from both ends. -/
def pyStripWs (s : Str) : Str :=
  ((s.dropWhile Char.isWhitespace).reverse.dropWhile Char.isWhitespace).reverse

/-- Python `str.strip(cs)`: remove characters of the set `cs` from both ends
(the source calls `word.lower().strip('.,!?')`, which strips the punctuation
from both ends of the word, not only the trailing end). -/
def pyStripChars (cs : Str) (s : Str) : Str :=
  ((s.dropWhile (fun c => cs.contains c)).reverse.dropWhile (fun c => cs.contains c)).reverse

/-- Python `str.lower()` (the texts involved are ASCII). -/
def toLowerStr (s : Str) : Str := s.map Char.toLower

/-- Python `str.upper()` (the texts involved are ASCII). -/
def toUpperStr (s : Str) : Str := s.map Char.toUpper

/-- Helper for `pySplit`: `acc` holds the characters of the current word,
in reverse order. -/
def pySplitAux : Str → Str → List Str
  | [], acc => if acc.isEmpty then [] else [acc.reverse]
  | c :: rest, acc =>
    if c.isWhitespace then
      if acc.isEmpty then pySplitAux rest [] else acc.reverse :: pySplitAux rest []
    else pySplitAux rest (c :: acc)

/-- Python `str.split()` with no argument: split on runs of whitespace,
dropping empty pieces. -/
def pySplit (s : Str) : List Str := pySplitAux s []

/-- Whether `p` occurs as a contiguous substring of the second argument
(Python `p in s`). -/
def isSubstr (p : Str) : Str → Bool
  | [] => p.isEmpty
  | c :: rest => p.isPrefixOf (c :: rest) || isSubstr p rest

/-- Helper for `replaceAll`, structurally recursive on a fuel bound so that
it evaluates by kernel reduction; `replaceAll` supplies fuel `s.length`,
which is enough because each step consumes at least one character. -/
def replaceAllAux (p r : Str) : Nat → Str → Str
  | _, [] => []
  | 0, s => s
  | fuel + 1, c :: rest =>
    if !p.isEmpty && p.isPrefixOf (c :: rest) then
      r ++ replaceAllAux p r fuel (List.drop (p.length - 1) rest)
    else
      c :: replaceAllAux p r fuel rest

/-- Python `s.replace(p, r)` for a non-empty pattern `p`: replace every
occurrence of `p` in `s` by `r`, scanning left to right, non-overlapping. -/
def replaceAll (p r s : Str) : Str := replaceAllAux p r s.length s

/-- Mean of a list of rationals (`np.mean`); the source only applies it to
blocks of more than 1000 samples. -/
def listMean (xs : List ℚ) : ℚ := xs.sum / xs.length

/-- The block after DC-offset removal: `audio_float32 - np.mean(audio_float32)`
(src/main_adaptive.py line 213). -/
def centered (xs : List ℚ) : List ℚ := xs.map (fun x => x - listMean xs)

/-- Peak absolute amplitude `np.max(np.abs(xs))` (src/main_adaptive.py
line 216); `0` on the empty list, which the source never hits. -/
def maxAbs (xs : List ℚ) : ℚ := (xs.map (fun x => |x|)).foldr max 0

/-- Per-block preprocessing of src/main_adaptive.py lines 211-218: for blocks
of more than 1000 samples, subtract the mean, and if the peak absolute
amplitude exceeds the noise floor `0.001`, scale by
`min(0.7 / max_amplitude, 3.0)`. -/
def preprocessChunk (xs : List ℚ) : List ℚ :=
  if 1000 < xs.length then
    let c := centered xs
    let maxAmplitude := maxAbs c
    if 1 / 1000 < maxAmplitude then
      c.map (fun x => x * min (7 / 10 / maxAmplitude) 3)
    else c
  else xs

/-- The square of `volume_level = np.sqrt(np.mean(audio_float32 ** 2))`
(src/main_adaptive.py line 221): mean of the squared samples.  All of the
source's comparisons of `volume_level` are encoded on this square (see the
header comment). -/
def volumeSq (xs : List ℚ) : ℚ := (xs.map (fun x => x * x)).sum / xs.length

/-- Square of the `0.01` strong-audio threshold, which doubles as the
transcription gate (src/main_adaptive.py lines 222 and 243). -/
def strongThreshSq : ℚ := 1 / 10000

/-- Square of the `0.001` low ("no audio") threshold
(src/main_adaptive.py line 225). -/
def weakThreshSq : ℚ := 1 / 1000000

/-- The argument record of one call to the engine's `transcribe` method.
Fields mirror the keyword arguments the source passes in its various calls
(src/main.py lines 111 and 126; src/main_adaptive.py lines 249-260, 264-270
and 317-322); a field is `none` when the call does not pass that keyword. -/
structure TranscribeCall where
  audio : List ℚ
  language : Option Str := none
  task : Option Str := none
  fp16 : Option Bool := none
  temperature : Option ℚ := none
  condition_on_previous_text : Option Bool := none
  beam_size : Option Nat := none
  best_of : Option Nat := none
  initial_prompt : Option Str := none
  vad_filter : Option Bool := none
  vad_min_silence_duration_ms : Option Nat := none
  word_timestamps : Option Bool := none
deriving DecidableEq

/-- One line pushed to the transcript queue.  Lines whose source text
interpolates the measured volume carry the squared volume as payload;
`transcript` is the accepted final text (the only constructor rendering
recognized speech), `errorLine` the `[ERROR] Transcription error: ...`
report, `tagalogInfo` the `[INFO] Tagalog detected...` notice. -/
inductive TranscriptLine where
  | debugStrong (volSq : ℚ)
  | debugWeak (volSq : ℚ)
  | waitingInfo (volSq : ℚ)
  | warningTooQuiet
  | helpHeader
  | helpItem (n : Nat)
  | debugShortEmpty (volSq : ℚ)
  | debugFiltered (volSq : ℚ)
  | debugShortCleanup (volSq : ℚ)
  | tagalogInfo
  | transcript (text : Str)
  | errorLine (msg : Str)
deriving DecidableEq

/-- Whether a line renders recognized speech (a plain transcript or a
translation), as opposed to an INFO/DEBUG/WARNING/ERROR line. -/
def TranscriptLine.isTranscript : TranscriptLine → Bool
  | .transcript _ => true
  | _ => false

/-- The texts of the transcript lines of a line list, in order. -/
def transcriptsOf (ls : List TranscriptLine) : List Str :=
  ls.filterMap fun l => match l with
    | .transcript s => some s
    | _ => none

/-- The artifact phrases of src/main_adaptive.py lines 282-287, in source
order: the first is a prefix of the second. -/
def artifacts : List Str :=
  ["The following is a clear speech recording".toList,
   "The following is a clear speech recording of".toList,
   "Thank you for watching".toList,
   "Thanks for watching".toList]

/-- Artifact stripping, src/main_adaptive.py lines 289-290: for each phrase
in order, `text = text.replace(artifact, "").strip()`. -/
def stripArtifacts (t : Str) : Str :=
  artifacts.foldl (fun acc a => pyStripWs (replaceAll a [] acc)) t

/-- Word normalization of the repetition filter, src/main_adaptive.py
line 298: `word.lower().strip('.,!?')` (strips the punctuation from both
ends). -/
def normalizeWord (w : Str) : Str := pyStripChars (".,!?".toList) (toLowerStr w)

/-- The normalized words that are counted by the repetition filter
(src/main_adaptive.py lines 296-300): only those of more than 2 characters
after normalization. -/
def countedWords (ws : List Str) : List Str :=
  (ws.map normalizeWord).filter (fun w => 2 < w.length)

/-- `max(word_counts.values())` of src/main_adaptive.py line 303: the largest
multiplicity among the counted normalized words. -/
def mostCommonCount (cws : List Str) : Nat :=
  (cws.map (fun w => cws.count w)).foldr max 0

/-- The repetition filter condition of src/main_adaptive.py lines 293-306:
for texts of more than 8 whitespace-separated words, the whole result is
discarded when some counted normalized word has multiplicity greater than
`len(words) * 0.4`.  The comparison `most_common_count > len(words) * 0.4`
is encoded by the exactly equivalent integer comparison
`2 * len(words) < 5 * most_common_count` (both sides scaled by 5, with
`0.4 = 2/5`). -/
def repetitionHit (ws : List Str) : Bool :=
  if 8 < ws.length then
    let cws := countedWords ws
    if !cws.isEmpty then
      decide (2 * ws.length < 5 * mostCommonCount cws)
    else false
  else false

/-- `max_no_audio_warnings` of src/main_adaptive.py line 201. -/
def max_no_audio_warnings : Nat := 3

/-- The lines emitted for a silent block once the consecutive-silence counter
has been incremented to `c` (src/main_adaptive.py lines 231-239): one info
line on the first silent block, the warning plus the four help lines on the
third, nothing otherwise. -/
def noAudioLines (c : Nat) (volSq : ℚ) : List TranscriptLine :=
  if c ≤ max_no_audio_warnings then
    if c = 1 then [TranscriptLine.waitingInfo volSq]
    else if c = max_no_audio_warnings then
      [TranscriptLine.warningTooQuiet, TranscriptLine.helpHeader,
       TranscriptLine.helpItem 1, TranscriptLine.helpItem 2, TranscriptLine.helpItem 3]
    else []
  else []

/-- The argument record of the adaptive worker's primary `transcribe` call in
its openai-whisper branch (src/main_adaptive.py lines 264-270). -/
def adaptiveTranscribeCall (audio : List ℚ) : TranscribeCall :=
  { audio := audio, language := some ("en".toList), fp16 := some false,
    temperature := some 0, condition_on_previous_text := some false }

/-- The argument record of the adaptive worker's primary `transcribe` call in
its faster-whisper branch (src/main_adaptive.py lines 249-260). -/
def adaptiveFasterTranscribeCall (audio : List ℚ) : TranscribeCall :=
  { audio := audio, language := some ("en".toList), beam_size := some 5,
    best_of := some 5, temperature := some 0,
    condition_on_previous_text := some false, initial_prompt := some [],
    vad_filter := some true, vad_min_silence_duration_ms := some 300,
    word_timestamps := some true }

/-- The argument record of the adaptive worker's translate call in the
openai-whisper branch (src/main_adaptive.py line 321; unreachable there
because the detected language is forced to `'en'` on line 271). -/
def adaptiveTranslateCall (audio : List ℚ) : TranscribeCall :=
  { audio := audio, language := some ("tl".toList),
    task := some ("translate".toList), fp16 := some false }

/-- The per-iteration outcome of the adaptive worker's loop body: the engine
calls it issued, the lines it pushed to the transcript queue, and the value
of `no_audio_counter` after the iteration. -/
structure BlockResult where
  calls : List TranscribeCall
  lines : List TranscriptLine
  counter : Nat
deriving DecidableEq

/-- The engine-call part of the adaptive loop body (src/main_adaptive.py
lines 242-325, openai-whisper branch), entered after the volume
classification emitted `pre` and reset the counter to `c`; first re-checks
the `volume_level < 0.01` transcription gate of line 243.  An `Except.error`
from the engine models the call raising, caught by the loop's handler
(lines 329-331). -/
def gateAndTranscribe (engine : TranscribeCall → Except Str Str) (volSq : ℚ)
    (audio : List ℚ) (pre : List TranscriptLine) (c : Nat) : BlockResult :=
  if volSq < strongThreshSq then
    { calls := [], lines := pre, counter := c }
  else
    let call := adaptiveTranscribeCall audio
    match engine call with
    | .error e => { calls := [call], lines := pre ++ [TranscriptLine.errorLine e], counter := c }
    | .ok raw =>
      let text := pyStripWs raw
      if text.length < 5 then
        { calls := [call], lines := pre ++ [TranscriptLine.debugShortEmpty volSq], counter := c }
      else
        let text1 := stripArtifacts (pyStripWs text)
        if repetitionHit (pySplit text1) then
          { calls := [call], lines := pre ++ [TranscriptLine.debugFiltered volSq], counter := c }
        else if (pyStripWs text1).length < 5 then
          { calls := [call], lines := pre ++ [TranscriptLine.debugShortCleanup volSq], counter := c }
        else
          let finalText := "[EN] ".toList ++ text1
          let detected := "en".toList
          if detected = "tl".toList then
            let tcall := adaptiveTranslateCall audio
            match engine tcall with
            | .error e =>
              { calls := [call, tcall],
                lines := pre ++ [TranscriptLine.tagalogInfo, TranscriptLine.errorLine e],
                counter := c }
            | .ok traw =>
              { calls := [call, tcall],
                lines := pre ++ [TranscriptLine.tagalogInfo,
                  TranscriptLine.transcript ("[TL > EN] ".toList ++ pyStripWs traw ++ ['\n'])],
                counter := c }
          else
            { calls := [call],
              lines := pre ++ [TranscriptLine.transcript (finalText ++ ['\n'])],
              counter := c }

/-- One iteration of the adaptive worker's loop on a dequeued chunk
(src/main_adaptive.py lines 205-325): preprocessing, volume classification
with the consecutive-silence counter, then the gated engine call. -/
def adaptiveProcessBlock (engine : TranscribeCall → Except Str Str)
    (counter : Nat) (chunk : List ℚ) : BlockResult :=
  let audio := preprocessChunk chunk
  let volSq := volumeSq audio
  if strongThreshSq < volSq then
    gateAndTranscribe engine volSq audio [TranscriptLine.debugStrong volSq] 0
  else if weakThreshSq < volSq then
    gateAndTranscribe engine volSq audio [TranscriptLine.debugWeak volSq] 0
  else
    { calls := [], lines := noAudioLines (counter + 1) volSq, counter := counter + 1 }

/-- The argument record of the basic worker's primary `transcribe` call
(src/main.py line 111): only `fp16=False` is passed; no temperature and no
conditioning option. -/
def mainTranscribeCall (audio : List ℚ) : TranscribeCall :=
  { audio := audio, fp16 := some false }

/-- The argument record of the basic worker's translate call
(src/main.py line 126). -/
def mainTranslateCall (audio : List ℚ) : TranscribeCall :=
  { audio := audio, language := some ("tl".toList),
    task := some ("translate".toList), fp16 := some false }

/-- The result of a `whisper_model.transcribe` call in src/main.py:
`result['text']` and `result['language']`. -/
structure MainResult where
  text : Str
  language : Str

/-- One iteration of the basic worker's loop on a dequeued chunk
(src/main.py lines 104-138): transcribe, skip empty text, tag with the
upper-cased detected language, and on detected `'tl'` issue a second,
translate call and tag the line `[TL > EN]` instead.  Returns the engine
calls issued and the lines pushed. -/
def mainProcessBlock (engine : TranscribeCall → Except Str MainResult)
    (chunk : List ℚ) : List TranscribeCall × List TranscriptLine :=
  let audio := chunk
  let call := mainTranscribeCall audio
  match engine call with
  | .error e => ([call], [TranscriptLine.errorLine e])
  | .ok result =>
    let text := pyStripWs result.text
    if text.isEmpty then ([call], [])
    else
      let finalText := "[".toList ++ toUpperStr result.language ++ "] ".toList ++ text
      if result.language = "tl".toList then
        let tcall := mainTranslateCall audio
        match engine tcall with
        | .error e => ([call, tcall], [TranscriptLine.tagalogInfo, TranscriptLine.errorLine e])
        | .ok tres =>
          ([call, tcall],
           [TranscriptLine.tagalogInfo,
            TranscriptLine.transcript ("[TL > EN] ".toList ++ pyStripWs tres.text ++ ['\n'])])
      else ([call], [TranscriptLine.transcript (finalText ++ ['\n'])])

/-- The hardware callback of src/main.py lines 46-51 (identical in
src/main_adaptive.py lines 71-76): a delivered block is copied and enqueued
only while `is_listening` holds; otherwise the queue is left untouched and
the block is discarded. -/
def audio_callback (is_listening : Bool) (q : List (List ℚ)) (indata : List ℚ) : List (List ℚ) :=
  if is_listening then q ++ [indata] else q

/-- The session flags of the application: `is_listening` and whether
`stop_listening_event` is set. -/
structure AppState where
  is_listening : Bool
  stopEventSet : Bool
deriving DecidableEq

/-- `Application.stop_listening_actions` of src/main.py lines 251-257
(identical in src/main_adaptive.py lines 514-522), restricted to the session
flags: unless already stopped and idle it clears `is_listening` and sets the
stop event; the early-return branch only triggers with `is_listening`
already false. -/
def stop_listening_actions (s : AppState) : AppState :=
  if s.is_listening = false ∧ s.stopEventSet = false then s
  else { is_listening := false, stopEventSet := true }

/-- The state of the transcription worker's loop: the stop flag
(`stop_listening_event`), the audio queue, `no_audio_counter`, the lines
pushed so far, and — as bookkeeping for the proofs — the list of blocks
dequeued and handed to the loop body so far. -/
structure WorkerState where
  stopFlag : Bool
  audioQueue : List (List ℚ)
  noAudioCounter : Nat
  outLines : List TranscriptLine
  processed : List (List ℚ)
deriving DecidableEq

/-- The loop guard of src/main.py line 102 and src/main_adaptive.py
line 203: `while not stop_listening_event.is_set() or not audio_queue.empty()`. -/
def loopCond (s : WorkerState) : Bool :=
  !s.stopFlag || !s.audioQueue.isEmpty

/-- One iteration of the worker loop (src/main_adaptive.py lines 204-331):
on an empty queue, `audio_queue.get(timeout=1)` raises `queue.Empty` and the
iteration is a no-op (re-checking the guard); otherwise the head block is
dequeued and handed to the loop body. -/
def workerStep (engine : TranscribeCall → Except Str Str) (s : WorkerState) : WorkerState :=
  match s.audioQueue with
  | [] => s
  | b :: rest =>
    let r := adaptiveProcessBlock engine s.noAudioCounter b
    { stopFlag := s.stopFlag, audioQueue := rest, noAudioCounter := r.counter,
      outLines := s.outLines ++ r.lines, processed := s.processed ++ [b] }

/-- Up to `n` iterations of the worker loop: each iteration runs only while
the loop guard holds, and the loop exits as soon as the guard fails. -/
def workerRun (engine : TranscribeCall → Except Str Str) : Nat → WorkerState → WorkerState
  | 0, s => s
  | n + 1, s => if loopCond s then workerRun engine n (workerStep engine s) else s

/-- The shorter boilerplate phrase, first in the artifact list. -/
def shortPhrase : Str := "The following is a clear speech recording".toList

/-- The longer boilerplate phrase, second in the artifact list; `shortPhrase`
is a proper prefix of it. -/
def longPhrase : Str := "The following is a clear speech recording of".toList

/-- An input containing `longPhrase` (at index 82) built so that removing
every occurrence of `shortPhrase` re-creates `longPhrase` by juxtaposition:
the first ten characters of `shortPhrase`, an embedded full `shortPhrase`,
the rest of `shortPhrase`, a second full `shortPhrase` and the trailing
` of`. -/
def badInput : Str :=
  shortPhrase.take 10 ++ shortPhrase ++ shortPhrase.drop 10 ++ shortPhrase ++ " of".toList

/-- A sample recognized text that the repetition filter passes. -/
def foxText : Str := "the quick brown fox jumps over the lazy dog".toList

/-- A sample recognized text of 9 repeated tokens that the repetition filter
discards. -/
def checkText : Str := "check check check check check check check check check".toList

/-- A sample recognized text of 9 repeated `..ab` tokens: under the code's
both-ends punctuation strip the normalized word `ab` has only 2 characters
and is not counted, while under a trailing-only strip the normalized word
`..ab` has 4 characters and is counted 9 times. -/
def dotsText : Str := "..ab ..ab ..ab ..ab ..ab ..ab ..ab ..ab ..ab".toList

/-- An engine that recognizes `foxText` on every block. -/
def engineFox : TranscribeCall → Except Str Str := fun _ => Except.ok foxText

/-- An engine that recognizes `checkText` on every block. -/
def engineCheck : TranscribeCall → Except Str Str := fun _ => Except.ok checkText

/-- An engine that recognizes `dotsText` on every block. -/
def engineDots : TranscribeCall → Except Str Str := fun _ => Except.ok dotsText

/-- An engine whose calls always raise. -/
def engineRaise : TranscribeCall → Except Str Str := fun _ => Except.error ("boom".toList)

/-- A basic-pipeline engine that detects Tagalog on the primary call and
returns an English text on the translate call. -/
def engineTl : TranscribeCall → Except Str MainResult := fun c =>
  if c.task = some ("translate".toList) then
    Except.ok { text := "good morning".toList, language := "en".toList }
  else
    Except.ok { text := "magandang umaga".toList, language := "tl".toList }

/-- A basic-pipeline engine that detects English. -/
def engineHello : TranscribeCall → Except Str MainResult := fun _ =>
  Except.ok { text := "hello there friend".toList, language := "en".toList }

/-- A strong all-ones block of 3 samples: its squared RMS volume is 1. -/
def strongBlock : List ℚ := [1, 1, 1]

/-- An all-zero block: its squared RMS volume is 0 ("no audio"). -/
def zeroBlock : List ℚ := [0, 0, 0]

/-- A block of 1001 samples with zero mean and peak amplitude 1, used to
exercise the preprocessing branch for blocks above the minimum sample
count. -/
def wBlock : List ℚ := 1 :: (-1) :: List.replicate 999 0

/-- Modelled from the claim's words, not from the source: the repetition
condition of claim C4, whose normalization case-folds and strips only the
TRAILING `.,!?` characters of a word (the source's `str.strip` strips both
ends).  Kept verbatim to the claim for comparison with `repetitionHit`. -/
def specNormalizeWord (w : Str) : Str :=
  ((toLowerStr w).reverse.dropWhile (fun c => (".,!?".toList).contains c)).reverse

/-- Modelled from the claim's words, not from the source: a text is
discarded when it has more than 8 whitespace-separated words and the most
frequent normalized word (per `specNormalizeWord`, counted only when longer
than 2 characters) occurs more than 40% of the total word count. -/
def specRepetitionDiscard (text : Str) : Bool :=
  let ws := pySplit text
  if 8 < ws.length then
    let cws := (ws.map specNormalizeWord).filter (fun w => 2 < w.length)
    if !cws.isEmpty then
      decide (2 * ws.length < 5 * mostCommonCount cws)
    else false
  else false


/-- A stopped worker state with two blocks still queued. -/
def c1State : WorkerState :=
  { stopFlag := true, audioQueue := [strongBlock, zeroBlock], noAudioCounter := 0,
    outLines := [], processed := [] }
/-- Helper: the counter returned by `gateAndTranscribe` is exactly the
counter value the classification handed it. -/
theorem gateAndTranscribe_counter (engine : TranscribeCall → Except Str Str)
    (volSq : ℚ) (audio : List ℚ) (pre : List TranscriptLine) (c : Nat) :
    (gateAndTranscribe engine volSq audio pre c).counter = c := by
  unfold gateAndTranscribe
  dsimp only
  repeat' split
  all_goals rfl

/-- Helper: when the transcription gate passes, `gateAndTranscribe` issues
the primary engine call, so its call list is non-empty. -/
theorem gateAndTranscribe_calls_ne (engine : TranscribeCall → Except Str Str)
    (volSq : ℚ) (audio : List ℚ) (pre : List TranscriptLine) (c : Nat)
    (h : ¬ volSq < strongThreshSq) :
    (gateAndTranscribe engine volSq audio pre c).calls ≠ [] := by
  unfold gateAndTranscribe
  rw [if_neg h]
  dsimp only
  repeat' split
  all_goals simp

/-- Helper: the call list of one adaptive iteration is either empty or the
single primary transcribe call on the preprocessed block (the translate
branch is unreachable: the detected language is forced to `'en'`). -/
theorem adaptiveProcessBlock_calls (engine : TranscribeCall → Except Str Str)
    (c : Nat) (b : List ℚ) :
    (adaptiveProcessBlock engine c b).calls = [] ∨
    (adaptiveProcessBlock engine c b).calls = [adaptiveTranscribeCall (preprocessChunk b)] := by
  unfold adaptiveProcessBlock gateAndTranscribe
  dsimp only
  repeat' split
  all_goals simp_all

/-- C2: a block delivered by the hardware callback is copied and enqueued
exactly when the session is marked active (`is_listening`); after
`stop_listening_actions` the session is never marked active, so blocks
delivered after a stop request are silently discarded, never enqueued. -/
theorem spec_c2_callback_gating :
    (∀ (q : List (List ℚ)) (b : List ℚ), audio_callback true q b = q ++ [b]) ∧
    (∀ (q : List (List ℚ)) (b : List ℚ), audio_callback false q b = q) ∧
    (∀ s : AppState, (stop_listening_actions s).is_listening = false) ∧
    (∀ (s : AppState) (q : List (List ℚ)) (b : List ℚ),
      audio_callback (stop_listening_actions s).is_listening q b = q) := by
  have hstop : ∀ s : AppState, (stop_listening_actions s).is_listening = false := by
    intro s
    unfold stop_listening_actions
    split
    · next h => exact h.1
    · rfl
  refine ⟨fun q b => rfl, fun q b => rfl, hstop, fun s q b => ?_⟩
  rw [hstop s]
  rfl

/-- C1: the worker loop guard fails exactly when the stop flag is set AND
the audio queue is empty (so the loop keeps running while the flag is unset
or blocks remain), and once the flag is set, running the loop long enough
empties the queue, every queued block being dequeued in order and handed to
the loop body rather than dropped. -/
theorem spec_c1_loop_drain :
    (∀ s : WorkerState, loopCond s = false ↔ (s.stopFlag = true ∧ s.audioQueue = [])) ∧
    (∀ (engine : TranscribeCall → Except Str Str) (n : Nat) (s : WorkerState),
      s.stopFlag = true → s.audioQueue.length ≤ n →
      (workerRun engine n s).audioQueue = [] ∧
      (workerRun engine n s).processed = s.processed ++ s.audioQueue) := by
  constructor
  · intro s
    simp [loopCond, List.isEmpty_iff]
  · intro engine n
    induction n with
    | zero =>
      intro s hflag hlen
      have hq : s.audioQueue = [] := List.eq_nil_of_length_eq_zero (Nat.le_zero.mp hlen)
      simp [workerRun, hq]
    | succ n ih =>
      intro s hflag hlen
      cases hq : s.audioQueue with
      | nil =>
        have hcond : loopCond s = false := by simp [loopCond, hflag, hq]
        simp [workerRun, hcond, hq]
      | cons b rest =>
        have hcond : loopCond s = true := by simp [loopCond, hq]
        have hstep : workerStep engine s =
            { stopFlag := s.stopFlag, audioQueue := rest,
              noAudioCounter := (adaptiveProcessBlock engine s.noAudioCounter b).counter,
              outLines := s.outLines ++ (adaptiveProcessBlock engine s.noAudioCounter b).lines,
              processed := s.processed ++ [b] } := by
          unfold workerStep
          rw [hq]
        have hlen' : rest.length ≤ n := by
          have h2 := hlen
          rw [hq] at h2
          simpa using h2
        have h3 := ih (workerStep engine s) (by rw [hstep]; exact hflag)
          (by rw [hstep]; exact hlen')
        rw [workerRun, hcond]
        simp only [if_true]
        refine ⟨h3.1, ?_⟩
        rw [h3.2, hstep]
        simp

/-- C1 witness: from a stopped state with two queued blocks, two loop
iterations drain the queue and both blocks are processed in order. -/
theorem spec_c1_loop_drain_witness :
    c1State.stopFlag = true ∧ c1State.audioQueue.length ≤ 2 ∧
    (workerRun engineFox 2 c1State).audioQueue = [] ∧
    (workerRun engineFox 2 c1State).processed = [strongBlock, zeroBlock] := by
  have h := spec_c1_loop_drain.2 engineFox 2 c1State rfl (by simp [c1State])
  exact ⟨rfl, by simp [c1State], h.1, by simpa [c1State] using h.2⟩

/-- C9: if the engine call on a dequeued block raises, the worker catches
it, pushes a tagged error line to the transcript queue, leaves the stop flag
untouched and proceeds to the remaining queue: a single bad block never
aborts the session. -/
theorem spec_c9_error_recovery :
    ∀ (engine : TranscribeCall → Except Str Str) (s : WorkerState) (b : List ℚ)
      (rest : List (List ℚ)) (e : Str),
      s.audioQueue = b :: rest →
      strongThreshSq < volumeSq (preprocessChunk b) →
      engine (adaptiveTranscribeCall (preprocessChunk b)) = Except.error e →
      (workerStep engine s).stopFlag = s.stopFlag ∧
      (workerStep engine s).audioQueue = rest ∧
      (workerStep engine s).outLines =
        s.outLines ++ [TranscriptLine.debugStrong (volumeSq (preprocessChunk b)),
                       TranscriptLine.errorLine e] := by
  intro engine s b rest e hq hstrong herr
  unfold workerStep
  rw [hq]
  unfold adaptiveProcessBlock
  dsimp only
  rw [if_pos hstrong]
  unfold gateAndTranscribe
  rw [if_neg (lt_asymm hstrong)]
  dsimp only
  rw [herr]
  simp

/-- C9 witness: a strong block whose engine call raises `boom` yields the
error line, an unchanged stop flag, and the loop positioned on the next
queued block. -/
theorem spec_c9_witness :
    c1State.audioQueue = strongBlock :: [zeroBlock] ∧
    strongThreshSq < volumeSq (preprocessChunk strongBlock) ∧
    engineRaise (adaptiveTranscribeCall (preprocessChunk strongBlock))
      = Except.error ("boom".toList) ∧
    (workerStep engineRaise c1State).stopFlag = c1State.stopFlag ∧
    (workerStep engineRaise c1State).audioQueue = [zeroBlock] ∧
    (workerStep engineRaise c1State).outLines =
      c1State.outLines ++ [TranscriptLine.debugStrong (volumeSq (preprocessChunk strongBlock)),
        TranscriptLine.errorLine ("boom".toList)] := by
  have hs : strongThreshSq < volumeSq (preprocessChunk strongBlock) := by
    norm_num [strongBlock, preprocessChunk, volumeSq, strongThreshSq]
  have h := spec_c9_error_recovery engineRaise c1State strongBlock [zeroBlock]
    ("boom".toList) rfl hs rfl
  exact ⟨rfl, hs, rfl, h.1, h.2.1, h.2.2⟩

/-- C3: a dequeued block whose squared RMS volume is below the squared
transcription gate threshold (equivalently, whose RMS volume is below 0.01,
including all-zero blocks below the low threshold) produces no engine call,
while a block at or above the gate always produces one. -/
theorem spec_c3_volume_gate :
    ∀ (engine : TranscribeCall → Except Str Str) (c : Nat) (b : List ℚ),
      (volumeSq (preprocessChunk b) < strongThreshSq →
        (adaptiveProcessBlock engine c b).calls = []) ∧
      (strongThreshSq ≤ volumeSq (preprocessChunk b) →
        (adaptiveProcessBlock engine c b).calls ≠ []) := by
  intro engine c b
  constructor
  · intro h
    unfold adaptiveProcessBlock
    dsimp only
    rw [if_neg (lt_asymm h)]
    split
    · unfold gateAndTranscribe
      rw [if_pos h]
    · rfl
  · intro h
    unfold adaptiveProcessBlock
    dsimp only
    have hne : ¬ volumeSq (preprocessChunk b) < strongThreshSq := not_lt.mpr h
    by_cases hsv : strongThreshSq < volumeSq (preprocessChunk b)
    · rw [if_pos hsv]
      exact gateAndTranscribe_calls_ne _ _ _ _ _ hne
    · rw [if_neg hsv]
      have hweak : weakThreshSq < volumeSq (preprocessChunk b) := by
        have h1 : weakThreshSq < strongThreshSq := by norm_num [weakThreshSq, strongThreshSq]
        exact lt_of_lt_of_le h1 h
      rw [if_pos hweak]
      exact gateAndTranscribe_calls_ne _ _ _ _ _ hne

/-- C3 witness: the all-zero block is below the gate and the worker issues
no engine call on it. -/
theorem spec_c3_witness :
    volumeSq (preprocessChunk zeroBlock) < strongThreshSq ∧
    (adaptiveProcessBlock engineFox 0 zeroBlock).calls = [] := by
  have h0 : volumeSq (preprocessChunk zeroBlock) < strongThreshSq := by
    norm_num [zeroBlock, preprocessChunk, volumeSq, strongThreshSq]
  exact ⟨h0, (spec_c3_volume_gate engineFox 0 zeroBlock).1 h0⟩

/-- C8: for a silent block (squared RMS at or below the squared low
threshold) the consecutive-silence counter increments, lines are emitted
only while the incremented counter is at most `max_no_audio_warnings` (one
info line on the first silent block, the warning and help lines on the
third, nothing on the fourth and later), and any block with detectable
audio resets the counter to zero. -/
theorem spec_c8_silence_throttle :
    ∀ (engine : TranscribeCall → Except Str Str) (c : Nat) (b : List ℚ),
      (volumeSq (preprocessChunk b) ≤ weakThreshSq →
        (adaptiveProcessBlock engine c b).counter = c + 1 ∧
        ((adaptiveProcessBlock engine c b).lines ≠ [] → c + 1 ≤ max_no_audio_warnings) ∧
        (c = 0 → (adaptiveProcessBlock engine c b).lines
            = [TranscriptLine.waitingInfo (volumeSq (preprocessChunk b))]) ∧
        (c + 1 = max_no_audio_warnings → (adaptiveProcessBlock engine c b).lines
            = [TranscriptLine.warningTooQuiet, TranscriptLine.helpHeader,
               TranscriptLine.helpItem 1, TranscriptLine.helpItem 2,
               TranscriptLine.helpItem 3]) ∧
        (max_no_audio_warnings < c + 1 → (adaptiveProcessBlock engine c b).lines = [])) ∧
      (weakThreshSq < volumeSq (preprocessChunk b) →
        (adaptiveProcessBlock engine c b).counter = 0) := by
  intro engine c b
  constructor
  · intro h
    have hw : ¬ weakThreshSq < volumeSq (preprocessChunk b) := not_lt.mpr h
    have hs : ¬ strongThreshSq < volumeSq (preprocessChunk b) := by
      intro hcon
      exact hw (lt_trans (by norm_num [weakThreshSq, strongThreshSq]) hcon)
    have hres : adaptiveProcessBlock engine c b =
        { calls := [], lines := noAudioLines (c + 1) (volumeSq (preprocessChunk b)),
          counter := c + 1 } := by
      unfold adaptiveProcessBlock
      dsimp only
      rw [if_neg hs, if_neg hw]
    rw [hres]
    refine ⟨rfl, ?_, ?_, ?_, ?_⟩
    · intro hne
      by_contra hgt
      apply hne
      show noAudioLines (c + 1) (volumeSq (preprocessChunk b)) = []
      unfold noAudioLines
      rw [if_neg (by omega)]
    · intro hc
      subst hc
      rfl
    · intro hc
      show noAudioLines (c + 1) (volumeSq (preprocessChunk b)) = _
      rw [hc]
      rfl
    · intro hc
      show noAudioLines (c + 1) (volumeSq (preprocessChunk b)) = []
      unfold noAudioLines
      rw [if_neg (by omega)]
  · intro h
    unfold adaptiveProcessBlock
    dsimp only
    split
    all_goals exact gateAndTranscribe_counter _ _ _ _ _

/-- C8 witness: a fifth consecutive silent block (counter 4 before the
iteration) emits no lines at all and moves the counter to 5. -/
theorem spec_c8_witness :
    volumeSq (preprocessChunk zeroBlock) ≤ weakThreshSq ∧
    (adaptiveProcessBlock engineFox 4 zeroBlock).counter = 5 ∧
    (adaptiveProcessBlock engineFox 4 zeroBlock).lines = [] := by
  have h0 : volumeSq (preprocessChunk zeroBlock) ≤ weakThreshSq := by
    norm_num [zeroBlock, preprocessChunk, volumeSq, weakThreshSq]
  have h := (spec_c8_silence_throttle engineFox 4 zeroBlock).1 h0
  exact ⟨h0, h.1, h.2.2.2.2 (by norm_num [max_no_audio_warnings])⟩

/-- Helper: a fold of `max` starting at `0` is nonnegative. -/
theorem foldr_max_nonneg (l : List ℚ) : 0 ≤ l.foldr max 0 := by
  induction l with
  | nil => exact le_refl 0
  | cons a t ih => exact le_trans ih (le_max_right a (t.foldr max 0))

/-- Helper: the peak absolute amplitude is nonnegative. -/
theorem maxAbs_nonneg (xs : List ℚ) : 0 ≤ maxAbs xs := foldr_max_nonneg _

/-- Helper: `maxAbs` unfolds on a cons cell. -/
theorem maxAbs_cons (a : ℚ) (l : List ℚ) : maxAbs (a :: l) = max |a| (maxAbs l) := rfl

/-- Helper: scaling a block by a nonnegative gain scales its peak absolute
amplitude by the same gain. -/
theorem maxAbs_map_mul (g : ℚ) (hg : 0 ≤ g) (xs : List ℚ) :
    maxAbs (xs.map (fun x => x * g)) = g * maxAbs xs := by
  induction xs with
  | nil => simp [maxAbs]
  | cons a t ih =>
    rw [List.map_cons, maxAbs_cons, maxAbs_cons, ih, abs_mul, abs_of_nonneg hg,
      mul_comm |a| g, mul_max_of_nonneg _ _ hg]

/-- C7: for a block of more than 1000 samples, preprocessing subtracts the
mean, and scales only when the centered peak exceeds the noise floor 0.001,
by the gain `min(0.7 / peak, 3.0)`; the gain never exceeds 3 and the scaled
peak never exceeds 0.7, while blocks at or below the noise floor stay
unscaled after DC removal. -/
theorem spec_c7_preprocess :
    ∀ xs : List ℚ, 1000 < xs.length →
      (maxAbs (centered xs) ≤ 1 / 1000 → preprocessChunk xs = centered xs) ∧
      (1 / 1000 < maxAbs (centered xs) →
        preprocessChunk xs
            = (centered xs).map (fun x => x * min (7 / 10 / maxAbs (centered xs)) 3) ∧
          min (7 / 10 / maxAbs (centered xs)) 3 ≤ 3 ∧
          maxAbs (preprocessChunk xs) ≤ 7 / 10) := by
  intro xs hlen
  constructor
  · intro h
    unfold preprocessChunk
    rw [if_pos hlen]
    dsimp only
    rw [if_neg (not_lt.mpr h)]
  · intro hp
    have hscaled : preprocessChunk xs
        = (centered xs).map (fun x => x * min (7 / 10 / maxAbs (centered xs)) 3) := by
      unfold preprocessChunk
      rw [if_pos hlen]
      dsimp only
      rw [if_pos hp]
    have hp0 : (0 : ℚ) < maxAbs (centered xs) := lt_trans (by norm_num) hp
    have hg0 : (0 : ℚ) ≤ min (7 / 10 / maxAbs (centered xs)) 3 :=
      le_min (le_of_lt (div_pos (by norm_num) hp0)) (by norm_num)
    refine ⟨hscaled, min_le_right _ _, ?_⟩
    rw [hscaled, maxAbs_map_mul _ hg0]
    calc min (7 / 10 / maxAbs (centered xs)) 3 * maxAbs (centered xs)
        ≤ 7 / 10 / maxAbs (centered xs) * maxAbs (centered xs) :=
          mul_le_mul_of_nonneg_right (min_le_left _ _) (le_of_lt hp0)
      _ = 7 / 10 := div_mul_cancel₀ _ (ne_of_gt hp0)

/-- Helper: the peak of an all-zero block is zero. -/
theorem maxAbs_replicate_zero (n : Nat) : maxAbs (List.replicate n (0 : ℚ)) = 0 := by
  induction n with
  | zero => rfl
  | succ n ih => rw [List.replicate_succ, maxAbs_cons, ih, abs_zero, max_self]

/-- Helper: the 1001-sample test block has zero mean. -/
theorem wBlock_mean : listMean wBlock = 0 := by
  norm_num [wBlock, listMean, List.sum_replicate]

/-- Helper: DC removal leaves the zero-mean test block unchanged. -/
theorem wBlock_centered : centered wBlock = wBlock := by
  simp [centered, wBlock_mean]

/-- Helper: the test block has peak absolute amplitude 1. -/
theorem wBlock_maxAbs : maxAbs wBlock = 1 := by
  show maxAbs (1 :: (-1) :: List.replicate 999 0) = 1
  rw [maxAbs_cons, maxAbs_cons, maxAbs_replicate_zero]
  norm_num

/-- C7 witness: the 1001-sample test block exceeds the noise floor and its
preprocessed peak is at most 0.7. -/
theorem spec_c7_witness :
    1000 < wBlock.length ∧ 1 / 1000 < maxAbs (centered wBlock) ∧
    min (7 / 10 / maxAbs (centered wBlock)) 3 ≤ 3 ∧
    maxAbs (preprocessChunk wBlock) ≤ 7 / 10 := by
  have hlen : 1000 < wBlock.length := by simp [wBlock]
  have hp : 1 / 1000 < maxAbs (centered wBlock) := by
    rw [wBlock_centered, wBlock_maxAbs]
    norm_num
  have h := (spec_c7_preprocess wBlock hlen).2 hp
  exact ⟨hlen, hp, h.2.1, h.2.2⟩

/-- C5: in the basic pipeline, a qualifying block (non-empty recognized
text) whose detected language is `tl` produces exactly two engine calls —
the primary transcribe call and then a translate call carrying the explicit
`task='translate'` directive — and the emitted line is tagged `[TL > EN]`
rather than as a plain transcript. -/
theorem spec_c5_tagalog :
    ∀ (engine : TranscribeCall → Except Str MainResult) (chunk : List ℚ)
      (res tres : MainResult),
      engine (mainTranscribeCall chunk) = Except.ok res →
      res.language = "tl".toList →
      pyStripWs res.text ≠ [] →
      engine (mainTranslateCall chunk) = Except.ok tres →
      (mainProcessBlock engine chunk).1
          = [mainTranscribeCall chunk, mainTranslateCall chunk] ∧
      (mainTranslateCall chunk).task = some ("translate".toList) ∧
      (mainProcessBlock engine chunk).2
          = [TranscriptLine.tagalogInfo,
             TranscriptLine.transcript ("[TL > EN] ".toList ++ pyStripWs tres.text ++ ['\n'])] := by
  intro engine chunk res tres hE hlang hne hT
  unfold mainProcessBlock
  dsimp only
  rw [hE]
  dsimp only
  rw [if_neg (by simp [List.isEmpty_iff, hne]), if_pos hlang, hT]
  exact ⟨rfl, rfl, rfl⟩

/-- C5 witness: with an engine that detects Tagalog and translates to
`good morning`, one block yields the two calls and the `[TL > EN]` line. -/
theorem spec_c5_witness :
    engineTl (mainTranscribeCall [1]) =
        Except.ok { text := "magandang umaga".toList, language := "tl".toList } ∧
    pyStripWs ("magandang umaga".toList) ≠ [] ∧
    engineTl (mainTranslateCall [1]) =
        Except.ok { text := "good morning".toList, language := "en".toList } ∧
    (mainProcessBlock engineTl [1]).1 = [mainTranscribeCall [1], mainTranslateCall [1]] ∧
    (mainTranslateCall [1]).task = some ("translate".toList) ∧
    (mainProcessBlock engineTl [1]).2
        = [TranscriptLine.tagalogInfo,
           TranscriptLine.transcript
             ("[TL > EN] ".toList ++ pyStripWs ("good morning".toList) ++ ['\n'])] := by
  have h := spec_c5_tagalog engineTl [1]
    { text := "magandang umaga".toList, language := "tl".toList }
    { text := "good morning".toList, language := "en".toList }
    rfl rfl (by decide) rfl
  exact ⟨rfl, by decide, rfl, h.1, h.2.1, h.2.2⟩

/-- C6 counterexample: the basic worker issues its transcribe call with no
temperature and no conditioning option at all (only `fp16=False`), so not
every worker invocation pins temperature to zero or disables conditioning
on prior output. -/
theorem spec_c6_counterexample :
    (mainProcessBlock engineHello [1]).1 = [mainTranscribeCall [1]] ∧
    (mainTranscribeCall [1]).temperature ≠ some 0 ∧
    (mainTranscribeCall [1]).condition_on_previous_text ≠ some false := by
  refine ⟨rfl, ?_, ?_⟩
  · show (none : Option ℚ) ≠ some 0
    simp
  · show (none : Option Bool) ≠ some false
    simp

/-- C6 amended: every transcribe invocation the adaptive worker issues
pins temperature to zero and disables conditioning on prior output (in
both its faster-whisper and openai-whisper call shapes), while the basic
variant of the worker passes neither option. -/
theorem spec_c6_amended :
    (∀ (engine : TranscribeCall → Except Str Str) (c : Nat) (b : List ℚ)
       (call : TranscribeCall), call ∈ (adaptiveProcessBlock engine c b).calls →
         call.temperature = some 0 ∧ call.condition_on_previous_text = some false) ∧
    (∀ audio : List ℚ, (adaptiveFasterTranscribeCall audio).temperature = some 0 ∧
       (adaptiveFasterTranscribeCall audio).condition_on_previous_text = some false) ∧
    (∀ audio : List ℚ, (mainTranscribeCall audio).temperature = none ∧
       (mainTranscribeCall audio).condition_on_previous_text = none) := by
  refine ⟨?_, fun audio => ⟨rfl, rfl⟩, fun audio => ⟨rfl, rfl⟩⟩
  intro engine c b call hmem
  rcases adaptiveProcessBlock_calls engine c b with h | h
  · rw [h] at hmem
    exact absurd hmem (List.not_mem_nil call)
  · rw [h] at hmem
    rcases List.mem_singleton.mp hmem with rfl
    exact ⟨rfl, rfl⟩

/-- Helper: `transcriptsOf` distributes over append. -/
theorem transcriptsOf_append (a b : List TranscriptLine) :
    transcriptsOf (a ++ b) = transcriptsOf a ++ transcriptsOf b := by
  simp [transcriptsOf]

/-- Helper: silence lines contain no transcript line. -/
theorem noAudioLines_no_transcript (c : Nat) (v : ℚ) :
    transcriptsOf (noAudioLines c v) = [] := by
  unfold noAudioLines
  repeat' split
  all_goals rfl

/-- Helper: when the engine text trips the repetition filter, the engine
step emits no transcript line. -/
theorem gateAndTranscribe_no_transcript (engine : TranscribeCall → Except Str Str)
    (v : ℚ) (audio : List ℚ) (pre : List TranscriptLine) (c : Nat) (raw : Str)
    (hE : engine (adaptiveTranscribeCall audio) = Except.ok raw)
    (hrep : repetitionHit (pySplit (stripArtifacts (pyStripWs (pyStripWs raw)))) = true)
    (hpre : transcriptsOf pre = []) :
    transcriptsOf (gateAndTranscribe engine v audio pre c).lines = [] := by
  unfold gateAndTranscribe
  dsimp only
  split
  · exact hpre
  · rw [hE]
    dsimp only
    by_cases hlen5 : (pyStripWs raw).length < 5
    · rw [if_pos hlen5]
      rw [transcriptsOf_append, hpre]
      rfl
    · rw [if_neg hlen5, if_pos hrep]
      rw [transcriptsOf_append, hpre]
      rfl

/-- Helper: evaluation of one adaptive iteration on a strong block whose
engine recognizes the fox sentence: the line is emitted unfiltered. -/
theorem adaptive_fox_eval :
    adaptiveProcessBlock engineFox 0 strongBlock =
      { calls := [adaptiveTranscribeCall strongBlock],
        lines := [TranscriptLine.debugStrong 1,
          TranscriptLine.transcript
            ("[EN] the quick brown fox jumps over the lazy dog\n".toList)],
        counter := 0 } := by
  have h1 : preprocessChunk strongBlock = strongBlock := by
    norm_num [preprocessChunk, strongBlock]
  have h2 : volumeSq strongBlock = 1 := by norm_num [volumeSq, strongBlock]
  simp only [adaptiveProcessBlock, h1, h2]
  rw [if_pos (by norm_num [strongThreshSq])]
  simp only [gateAndTranscribe]
  rw [if_neg (by norm_num [strongThreshSq])]
  simp only [engineFox]
  rw [if_neg (by decide), if_neg (by decide), if_neg (by decide), if_neg (by decide)]
  congr 1

/-- Helper: evaluation of one adaptive iteration on a strong block whose
engine recognizes nine repeated `check` tokens: the result is filtered. -/
theorem adaptive_check_eval :
    adaptiveProcessBlock engineCheck 0 strongBlock =
      { calls := [adaptiveTranscribeCall strongBlock],
        lines := [TranscriptLine.debugStrong 1, TranscriptLine.debugFiltered 1],
        counter := 0 } := by
  have h1 : preprocessChunk strongBlock = strongBlock := by
    norm_num [preprocessChunk, strongBlock]
  have h2 : volumeSq strongBlock = 1 := by norm_num [volumeSq, strongBlock]
  simp only [adaptiveProcessBlock, h1, h2]
  rw [if_pos (by norm_num [strongThreshSq])]
  simp only [gateAndTranscribe]
  rw [if_neg (by norm_num [strongThreshSq])]
  simp only [engineCheck]
  rw [if_neg (by decide), if_pos (by decide)]
  simp

/-- Helper: evaluation of one adaptive iteration on a strong block whose
engine recognizes nine repeated `..ab` tokens: the result is emitted, not
filtered. -/
theorem adaptive_dots_eval :
    adaptiveProcessBlock engineDots 0 strongBlock =
      { calls := [adaptiveTranscribeCall strongBlock],
        lines := [TranscriptLine.debugStrong 1,
          TranscriptLine.transcript ("[EN] ".toList ++ dotsText ++ ['\n'])],
        counter := 0 } := by
  have h1 : preprocessChunk strongBlock = strongBlock := by
    norm_num [preprocessChunk, strongBlock]
  have h2 : volumeSq strongBlock = 1 := by norm_num [volumeSq, strongBlock]
  simp only [adaptiveProcessBlock, h1, h2]
  rw [if_pos (by norm_num [strongThreshSq])]
  simp only [gateAndTranscribe]
  rw [if_neg (by norm_num [strongThreshSq])]
  simp only [engineDots]
  rw [if_neg (by decide), if_neg (by decide), if_neg (by decide), if_neg (by decide)]
  have h3 : stripArtifacts (pyStripWs (pyStripWs dotsText)) = dotsText := by decide
  rw [h3]
  simp

/-- C4 counterexample: the text of nine repeated `..ab` tokens satisfies
the claim's discard condition (its trailing-stripped normalized word `..ab`
has 4 characters and occurs in all 9 of 9 words, far above 40%), yet the
worker emits the transcript line for it: the code strips punctuation from
BOTH ends (`str.strip`), so the normalized word is `ab`, too short to be
counted. -/
theorem spec_c4_counterexample :
    specRepetitionDiscard dotsText = true ∧
    (adaptiveProcessBlock engineDots 0 strongBlock).lines =
      [TranscriptLine.debugStrong 1,
       TranscriptLine.transcript ("[EN] ".toList ++ dotsText ++ ['\n'])] := by
  constructor
  · decide
  · rw [adaptive_dots_eval]

/-- C4 amended: with normalization that case-folds and strips `.,!?` from
both ends (Python `str.strip`), a recognized text whose artifact-stripped
form has more than 8 words with some counted normalized word above the 40%
bound is discarded with no transcript line emitted; nine repeated `check`
tokens are discarded while the fox sentence passes through. -/
theorem spec_c4_amended :
    (∀ (engine : TranscribeCall → Except Str Str) (c : Nat) (b : List ℚ) (raw : Str),
      engine (adaptiveTranscribeCall (preprocessChunk b)) = Except.ok raw →
      repetitionHit (pySplit (stripArtifacts (pyStripWs (pyStripWs raw)))) = true →
      transcriptsOf (adaptiveProcessBlock engine c b).lines = []) ∧
    transcriptsOf (adaptiveProcessBlock engineCheck 0 strongBlock).lines = [] ∧
    transcriptsOf (adaptiveProcessBlock engineFox 0 strongBlock).lines
      = ["[EN] the quick brown fox jumps over the lazy dog\n".toList] := by
  refine ⟨?_, ?_, ?_⟩
  · intro engine c b raw hE hrep
    unfold adaptiveProcessBlock
    dsimp only
    split
    · exact gateAndTranscribe_no_transcript _ _ _ _ _ raw hE hrep rfl
    · split
      · exact gateAndTranscribe_no_transcript _ _ _ _ _ raw hE hrep rfl
      · exact noAudioLines_no_transcript _ _
  · rw [adaptive_check_eval]
    rfl
  · rw [adaptive_fox_eval]
    rfl

/-- C4 witness: nine repeated `check` tokens trip the repetition filter and
the worker emits no transcript line for them. -/
theorem spec_c4_witness :
    engineCheck (adaptiveTranscribeCall (preprocessChunk strongBlock))
        = Except.ok checkText ∧
    repetitionHit (pySplit (stripArtifacts (pyStripWs (pyStripWs checkText)))) = true ∧
    transcriptsOf (adaptiveProcessBlock engineCheck 0 strongBlock).lines = [] :=
  ⟨rfl, by decide, spec_c4_amended.1 engineCheck 0 strongBlock checkText rfl (by decide)⟩

/-- C6 amended witness: the call issued on a concrete strong block carries
`temperature = 0` and `condition_on_previous_text = False`. -/
theorem spec_c6_amended_witness :
    adaptiveTranscribeCall strongBlock
        ∈ (adaptiveProcessBlock engineFox 0 strongBlock).calls ∧
    (adaptiveTranscribeCall strongBlock).temperature = some 0 ∧
    (adaptiveTranscribeCall strongBlock).condition_on_previous_text = some false := by
  have hmem : adaptiveTranscribeCall strongBlock
      ∈ (adaptiveProcessBlock engineFox 0 strongBlock).calls := by
    rw [adaptive_fox_eval]
    exact List.mem_singleton_self _
  exact ⟨hmem, (spec_c6_amended.1 engineFox 0 strongBlock _ hmem).1,
    (spec_c6_amended.1 engineFox 0 strongBlock _ hmem).2⟩

/-- Helper: a substring occurrence of `q` yields one of any prefix of
`q`. -/
theorem isSubstr_mono {p q : Str} (hpq : p.isPrefixOf q = true) :
    ∀ t, isSubstr q t = true → isSubstr p t = true := by
  intro t
  induction t with
  | nil =>
    intro hq
    have hqnil : q = [] := by
      simpa [isSubstr, List.isEmpty_iff] using hq
    subst hqnil
    have hpnil : p = [] := by
      simpa [List.isPrefixOf_iff_prefix] using hpq
    subst hpnil
    rfl
  | cons c rest ih =>
    intro hq
    have hq2 : (q.isPrefixOf (c :: rest) || isSubstr q rest) = true := hq
    rcases Bool.or_eq_true_iff.mp hq2 with h | h
    · have hpre : p.isPrefixOf (c :: rest) = true :=
        List.isPrefixOf_iff_prefix.mpr
          ((List.isPrefixOf_iff_prefix.mp hpq).trans (List.isPrefixOf_iff_prefix.mp h))
      show (p.isPrefixOf (c :: rest) || isSubstr p rest) = true
      rw [hpre]
      rfl
    · show (p.isPrefixOf (c :: rest) || isSubstr p rest) = true
      rw [ih h]
      simp

/-- Helper: replacing a pattern that does not occur leaves the text
unchanged, whatever the fuel. -/
theorem replaceAllAux_id (p r : Str) :
    ∀ (fuel : Nat) (s : Str), isSubstr p s = false → replaceAllAux p r fuel s = s := by
  intro fuel
  induction fuel with
  | zero =>
    intro s hs
    cases s <;> rfl
  | succ fuel ih =>
    intro s hs
    cases s with
    | nil => rfl
    | cons c rest =>
      have h2 : (p.isPrefixOf (c :: rest) || isSubstr p rest) = false := by
        simpa [isSubstr] using hs
      rcases Bool.or_eq_false_iff.mp h2 with ⟨hpre, hrest⟩
      show (if !p.isEmpty && p.isPrefixOf (c :: rest) then
          r ++ replaceAllAux p r fuel (List.drop (p.length - 1) rest)
        else c :: replaceAllAux p r fuel rest) = c :: rest
      rw [hpre]
      simp only [Bool.and_false, if_neg Bool.false_ne_true]
      rw [ih rest hrest]

/-- Helper: replacing a pattern that does not occur is the identity. -/
theorem replaceAll_id (p r s : Str) (h : isSubstr p s = false) : replaceAll p r s = s :=
  replaceAllAux_id p r s.length s h

/-- C10 counterexample: an input that contains the longer phrase but in
which removing every occurrence of the shorter phrase re-creates the longer
phrase by juxtaposition: stripping removes everything, leaving no dangling
`of`, so the longer phrase is not unmatched on every input containing
it. -/
theorem spec_c10_counterexample :
    isSubstr longPhrase badInput = true ∧ stripArtifacts badInput = [] := by
  constructor
  · decide
  · decide

/-- C10 amended: because the shorter phrase is replaced first and is a
prefix of the longer one, the longer phrase can never match any remaining
text that no longer contains the shorter phrase — so unless the global
removal of the shorter phrase re-creates it by juxtaposition, the second
replacement is a no-op and a dangling `of` is left behind: stripping the
longer phrase alone yields `of`, and inside ordinary surrounding text the
dangling `of` remains. -/
theorem spec_c10_amended :
    (∀ t : Str, isSubstr shortPhrase t = false → replaceAll longPhrase [] t = t) ∧
    stripArtifacts longPhrase = "of".toList ∧
    stripArtifacts ("Hello. The following is a clear speech recording of a meeting".toList)
      = "Hello.  of a meeting".toList := by
  refine ⟨?_, by decide, by decide⟩
  intro t h
  apply replaceAll_id
  cases hq : isSubstr longPhrase t with
  | false => rfl
  | true =>
    have := isSubstr_mono (p := shortPhrase) (q := longPhrase) (by decide) t hq
    rw [this] at h
    exact absurd h (by simp)

/-- C10 witness: on a text free of the shorter phrase, replacing the longer
phrase is a no-op. -/
theorem spec_c10_witness :
    isSubstr shortPhrase ("completely unrelated text".toList) = false ∧
    replaceAll longPhrase [] ("completely unrelated text".toList)
      = "completely unrelated text".toList :=
  ⟨by decide, spec_c10_amended.1 ("completely unrelated text".toList) (by decide)⟩
